import Mathlib

/-!
Shallow embedding of the ACE-table decoder (`ace.py`) of the DataListing
repository.  XSS values are modelled as rationals: the source stores IEEE
doubles, and every operation the theorems below exercise is exact
arithmetic, comparison, truncation to int, or slicing, on which the two
agree.  The source's 1-based MCNP index arithmetic is kept literally;
`pyAt` / `pySlice` model numpy's 0-based indexing and (clamping) slicing.
-/

namespace DataListing

/-- Python `int()` applied to a numeric value: truncation toward zero. -/
def pyInt (q : ℚ) : ℤ := q.num.tdiv q.den

/-- Element of an array at 0-based index `i`.  Out-of-range reads (which
raise `IndexError` in numpy) are modelled as 0 and never exercised by the
theorems below. -/
def pyAt (xss : List ℚ) (i : ℤ) : ℚ := xss.getD i.toNat 0

/-- Python slice `xss[a:b]` for 0-based natural bounds (out-of-range bounds
clamp, exactly as in python). -/
def pySlice (xss : List ℚ) (a b : ℕ) : List ℚ := (xss.drop a).take (b - a)

/-- Python slice `xss[a:b]` with the integer bounds produced by the source's
index arithmetic; the theorems only evaluate it at nonnegative bounds. -/
def pySliceZ (xss : List ℚ) (a b : ℤ) : List ℚ :=
  (xss.drop a.toNat).take (b - a).toNat

/-- Decimal digits of a string accumulated into a natural number. -/
def digitsToNat (cs : List Char) : ℕ :=
  cs.foldl (fun acc c => 10 * acc + (c.toNat - 48)) 0

/-- Python `int(s)` on a string: an optional sign followed by one or more
digits parses to an integer; anything else raises `ValueError` (modelled as
`none`). -/
def pyParseInt (s : String) : Option ℤ :=
  match s.toList with
  | [] => none
  | '-' :: ds =>
      if ds ≠ [] ∧ ds.all Char.isDigit then some (-(digitsToNat ds : ℤ)) else none
  | '+' :: ds =>
      if ds ≠ [] ∧ ds.all Char.isDigit then some ((digitsToNat ds : ℤ)) else none
  | ds =>
      if ds.all Char.isDigit then some ((digitsToNat ds : ℤ)) else none

/-- Cross-section record (`class XS` of `ace.py`): `EXS` is the structured
array built from `[(E, xs) for E, xs in zip(Energy, xs)]`; python's `zip`
silently stops at the shorter input. -/
structure XS where
  mt : ℤ
  EXS : List (ℚ × ℚ)
  name : Option String
deriving DecidableEq

/-- Constructor `XS.__init__(self, mt, Energy, xs, name=None)`. -/
def XS.init (mt : ℤ) (Energy xs : List ℚ) (name : Option String) : XS :=
  { mt := mt, EXS := Energy.zip xs, name := name }

/-- Numpy `searchsorted` (side `left`) on a sorted array: the insertion
index, i.e. the number of elements strictly below `e`. -/
def searchsorted (l : List ℚ) (e : ℚ) : ℕ :=
  (l.filter (fun y => decide (y < e))).length

/-- Method `XS.Sample(self, E)`: the exact stored value at a grid energy
(numpy boolean-mask lookup; on a strictly increasing grid the mask selects
exactly one entry, modelled as the first match), 0 when the insertion index
falls outside the grid, and otherwise lin-lin interpolation between the two
bracketing grid points. -/
def XS.Sample (x : XS) (E : ℚ) : ℚ :=
  let energies := x.EXS.map Prod.fst
  if E ∈ energies then
    ((x.EXS.filter (fun p => decide (p.1 = E))).map Prod.snd).headD 0
  else
    let index := searchsorted energies E
    if index = 0 ∨ index ≥ x.EXS.length then 0
    else
      let p0 := x.EXS.getD (index - 1) (0, 0)
      let p1 := x.EXS.getD index (0, 0)
      (p1.2 - p0.2) / (p1.1 - p0.1) * (E - p0.1) + p0.2

/-- Loader semantics of `numpy.fromfile(file, dtype=float, sep=' ', count=n)`
as used by `ace.__init__` (line 794): reads at most `count` whitespace
separated floats and silently returns the shorter array when the stream is
exhausted; it never raises on a short read. -/
def numpyFromfile (stream : List ℚ) (count : ℕ) : List ℚ := stream.take count

/-- XSS load step of `ace.__init__`: the `count` argument is `NXS[1]`
(`self._NXS[0]` in the 0-based numpy array), the declared table length. -/
def aceReadXSS (stream : List ℚ) (nxs1 : ℕ) : List ℚ := numpyFromfile stream nxs1

/-- Assertion at the top of `ce._processXSS` (line 1142):
`assert len(self._XSS) == self.NXS[1]`.  `_processXSS` is never invoked by
`ace.__init__`; the call on line 798 is commented out. -/
def processXSSAssert (xss : List ℚ) (nxs1 : ℕ) : Bool := xss.length == nxs1

/-- Arrays produced by `ce._ESZBlock`. -/
structure ESZBlockResult where
  energies : List ℚ
  xs_total : List ℚ
  xs_abs_total : List ℚ
  xs_el : List ℚ
  ave_heating : List ℚ
deriving DecidableEq

/-- Decoder `ce._ESZBlock`: `start_index = JXS[1]-1`, `N = NXS[3]`.  The
source's energy slice is `self._XSS[start_index:N]` (upper bound `N`, not
`start_index+N`), while the four cross-section slices all use
`start_index+k*N : start_index+(k+1)*N`. -/
def ESZBlock (xss : List ℚ) (jxs1 : ℕ) (nxs3 : ℕ) : ESZBlockResult :=
  let start_index := jxs1 - 1
  let N := nxs3
  { energies := pySlice xss start_index N
    xs_total := pySlice xss (start_index + N) (start_index + 2 * N)
    xs_abs_total := pySlice xss (start_index + 2 * N) (start_index + 3 * N)
    xs_el := pySlice xss (start_index + 3 * N) (start_index + 4 * N)
    ave_heating := pySlice xss (start_index + 4 * N) (start_index + 5 * N) }

/-- Cross-section map entries inserted by `ce._ESZBlock`: MT keys 1, 102, 2
and 301, each an `XS` record pairing the decoded `energies` grid with the
corresponding value array (in the source's insertion order). -/
def ESZxsEntries (r : ESZBlockResult) : List (ℤ × XS) :=
  [(1, XS.init 1 r.energies r.xs_total (some "total")),
   (102, XS.init 102 r.energies r.xs_abs_total (some "abs")),
   (2, XS.init 2 r.energies r.xs_el (some "elastic")),
   (301, XS.init 301 r.energies r.ave_heating (some "heating"))]

/-- Concrete XSS array used to evaluate `ESZBlock` at `JXS[1] = 2`,
`NXS[3] = 3` (length 16 ≥ 1 + 5·3). -/
def xssESZexample : List ℚ :=
  [10, 11, 12, 13, 14, 15, 16, 17, 18, 19, 20, 21, 22, 23, 24, 25]

/-- INTT split of `Law4._process_outgoing_distribution` (lines 197-203):
`if inttp > 10: _ND = int(inttp); _INTT = inttp - 10*_ND` — the source
assigns `int(inttp)`, not `int(inttp/10)`, to `_ND`.  Returns the pair
`(ND, INTT)` as stored with the record (`ND = None` when `inttp ≤ 10`). -/
def law4SplitINTT (inttp : ℚ) : Option ℤ × ℚ :=
  if inttp > 10 then
    let nd := pyInt inttp
    (some nd, inttp - 10 * (nd : ℚ))
  else (none, inttp)

/-- INTT split of `Law44._process_outgoing_distribution` (line 279) and the
identical branch of `Law61` (line 333): the `inttp > 10` branch evaluates
`inttp - 10*self._ND`, but the attribute `_ND` is never assigned anywhere
(only locals named `_ND` are), so the branch raises `AttributeError`;
modelled as `none`. -/
def law44SplitINTT (inttp : ℚ) : Option (Option ℤ × ℚ) :=
  if inttp > 10 then none
  else some (none, inttp)

/-- Tabular nubar record (the `nubar_tup` namedtuple built by
`ce._NUBlock._tab_nubar`, without the always-`None` `secondary_dist` slot).
The source assigns the first slice after `nr` to `_INT` and the second to
`_NBT`, then stores them as `(nr, _NBT, _INT, ne, E, nu)`. -/
structure TabNubar where
  nr : ℤ
  NBT : List ℚ
  INT : List ℚ
  ne : ℤ
  E : List ℚ
  nubar : List ℚ
deriving DecidableEq

/-- Decoder `ce._NUBlock._tab_nubar` at cursor `KNU` (a float in the source
when reached through the two-nubar branch; `int()` is applied exactly where
the source applies it). -/
def tabNubar (xss : List ℚ) (KNU : ℚ) : TabNubar :=
  let nr := pyInt (pyAt xss (pyInt (KNU + 1 - 1)))
  let intArr := pySliceZ xss (pyInt (KNU + (2 - 1) + 0 * (nr : ℚ) - 1))
    (pyInt (KNU + (2 - 1) + 1 * (nr : ℚ) - 1))
  let nbtArr := pySliceZ xss (pyInt (KNU + (2 - 1) + 1 * (nr : ℚ) - 1))
    (pyInt (KNU + (2 - 1) + 2 * (nr : ℚ) - 1))
  let K := pyInt (KNU + 2 + 2 * (nr : ℚ))
  let ne := pyInt (pyAt xss (K - 1))
  let K2 := K + 1
  let E := pySliceZ xss (K2 + 0 * ne - 1) (K2 + 1 * ne - 1)
  let nu := pySliceZ xss (K2 + 1 * ne - 1) (K2 + 2 * ne - 1)
  { nr := nr, NBT := nbtArr, INT := intArr, ne := ne, E := E, nubar := nu }

/-- Decoder `ce._NUBlock._extract_nubar`: reads `LNU = XSS[int(KNU-1)]`.
The polynomial branch calls `_poly_nubar`, whose body is `pass`, so it
returns `None`; the tabular branch returns the tabular record; any other
`LNU` falls through to an implicit `None`. -/
def extractNubar (xss : List ℚ) (KNU : ℚ) : Option TabNubar :=
  let LNU := pyAt xss (pyInt (KNU - 1))
  if LNU = 1 then none
  else if LNU = 2 then some (tabNubar xss KNU)
  else none

/-- Prompt/total nubar dispatch of `ce._NUBlock` (lines 1299-1316), returned
as `(prompt_nubar, total_nubar)`; the outer `none` means the two attributes
are never assigned (block absent because `JXS[2] = 0`, or `XSS[JXS[2]] = 0`
so neither branch fires).  The delayed-nubar part of the block (`JXS[24]`)
assigns different attributes and is not modelled here. -/
def NUBlock (xss : List ℚ) (jxs2 : ℤ) :
    Option (Option TabNubar × Option TabNubar) :=
  if jxs2 ≠ 0 then
    if 0 < pyAt xss (jxs2 - 1) then
      let r := extractNubar xss (jxs2 : ℚ)
      some (r, r)
    else if pyAt xss (jxs2 - 1) < 0 then
      some (extractNubar xss ((jxs2 : ℚ) + 1),
        extractNubar xss ((jxs2 : ℚ) + |pyAt xss (jxs2 - 1)| + 1))
    else none
  else none

/-- Decoder `ce._LANDBlock`:
`self._LOCB = self.XSS[(JXS[8]-1):(JXS[8]-1)+NXS[5]]` — the source reads
`NXS[5]` locators. -/
def LANDBlock (xss : List ℚ) (jxs8 : ℕ) (nxs5 : ℕ) : List ℚ :=
  pySlice xss (jxs8 - 1) (jxs8 - 1 + nxs5)

/-- MT keys to which `ce._ANDBlock` assigns angular distributions besides
the distinguished `elastic` key taken from `LOCB[0]`: the loop
`for i, loc in enumerate(self._LOCB[1:])` pairs `LOCB[1:]` with
`self.mt[i]`, so exactly the first `len(LOCB) - 1` MT numbers receive an
entry (an index past `len(mt)` would raise `IndexError`; never exercised
here). -/
def ANDBlockMTKeys (locb : List ℚ) (mt : List ℤ) : List ℤ :=
  mt.take (locb.length - 1)

/-- Identification fields set by `ace._processOldStyleHeader` from the part
of the ZAID before the dot: `zaid` is replaced by `int(zaid)` when it
parses (`none` here means the unparsed string is kept), in which case
`Z = int(zaid/1000)` (true division then truncation, i.e. `tdiv`) and
`A = int(zaid - Z*1000)`; on `ValueError` (alphanumeric thermal-scattering
names) both `Z` and `A` are set to `None`. -/
structure OldStyleZA where
  zaid : Option ℤ
  Z : Option ℤ
  A : Option ℤ
deriving DecidableEq

/-- ZA parsing step of `ace._processOldStyleHeader` (lines 889-896). -/
def processOldStyleZA (zaidStr : String) : OldStyleZA :=
  match pyParseInt zaidStr with
  | some n =>
      { zaid := some n, Z := some (n.tdiv 1000),
        A := some (n - n.tdiv 1000 * 1000) }
  | none => { zaid := none, Z := none, A := none }

/-- Python `s.split('.')`, via the kernel-reducible list splitter. -/
def pySplitDot (s : String) : List String :=
  (s.toList.splitOn '.').map fun cs => String.mk cs

/-- ZAID handling of `ace._processOldStyleHeader`:
`self.zaid, self.suffix = self.ZAID.split('.')` — the unpacking requires
exactly one dot (otherwise `ValueError`, modelled as `none`); the part
before the dot is then parsed by `processOldStyleZA`. -/
def processOldStyleHeaderId (ZAID : String) : Option (OldStyleZA × String) :=
  match pySplitDot ZAID with
  | [z, s] => some (processOldStyleZA z, s)
  | _ => none

/-- Identification fields set by `ace._processNewStyleHeader` from the ZAID:
`self.zaid, self.zaid_suffix = self.ZAID.split('.')` and nothing else — the
new-style path never assigns `Z` or `A` (the two always-`none` fields model
the absent attributes). -/
structure NewStyleId where
  zaid : String
  zaid_suffix : String
  Z : Option ℤ
  A : Option ℤ
deriving DecidableEq

/-- ZAID handling of `ace._processNewStyleHeader` (lines 854-855). -/
def processNewStyleHeaderId (ZAID : String) : Option NewStyleId :=
  match pySplitDot ZAID with
  | [z, s] => some { zaid := z, zaid_suffix := s, Z := none, A := none }
  | _ => none

/-- Error raised by `ace.__init__` during argument validation. -/
inductive AceInitError where
  | assertionError
  | syntaxError
deriving DecidableEq

/-- Data source chosen by `ace.__init__` after the opening assertion; the
data file is opened only after this choice succeeds. -/
inductive AceSetup where
  | fromFilename (filename : String) (start_line : ℤ)
  | fromXsdir (zaid : String)
deriving DecidableEq

/-- Argument validation and dispatch of `ace.__init__` (lines 748-773):
`assert filename or (zaid and xsdir)` runs first, before anything else; the
`open` on the data file and every header read happen only after an `.ok`
result.  The filename/start-line looked up from the xsdir entry inside the
`elif` branch is summarised by the `zaid` key used for the lookup, which is
all the claims touch. -/
def aceInitDispatch (filename : Option (String × ℤ)) (zaid : Option String)
    (hasXsdir : Bool) : Except AceInitError AceSetup :=
  if filename.isSome ∨ (zaid.isSome ∧ hasXsdir = true) then
    match filename, zaid with
    | some (f, sl), _ => .ok (.fromFilename f sl)
    | none, some z => .ok (.fromXsdir z)
    | none, none => .error .syntaxError
  else .error .assertionError

/-- C9 counterexample: constructing an `XS` from arrays of lengths 2 and 1
is not rejected; it silently yields a record holding the single zipped
(truncated) pair. -/
theorem C9_counterexample :
    XS.init 1 [1, 2] [5] none = { mt := 1, EXS := [(1, 5)], name := none } ∧
      ([(1 : ℚ), 2].length = 2 ∧ [(5 : ℚ)].length = 1) :=
  ⟨rfl, rfl, rfl⟩

/-- C9 (amended): `XS` construction performs no length check; the record
always satisfies `len(energy) == len(value)` because `zip` truncates both
input arrays to the shorter length, and unequal-length inputs are silently
truncated rather than rejected. -/
theorem C9_zip_truncates (mt : ℤ) (name : Option String) (Energy xs : List ℚ) :
    ((XS.init mt Energy xs name).EXS.map Prod.fst).length
        = ((XS.init mt Energy xs name).EXS.map Prod.snd).length ∧
      (XS.init mt Energy xs name).EXS.length = min Energy.length xs.length := by
  simp [XS.init]

/-- C6 counterexample: at the last grid point `E = energies[NES-1]` the
membership branch of `Sample` returns the stored cross-section value, not
the 0 that the claim requires for every `E ≥ energies[NES-1]`. -/
theorem C6_counterexample :
    XS.Sample (XS.init 1 [1, 2] [5, 7] none) 2 = 7 ∧ (7 : ℚ) ≠ 0 :=
  ⟨by decide, by decide⟩

/-- Helper: `searchsorted` returns `i` whenever the first `i` elements lie
strictly below `e` and the remaining elements lie strictly above it. -/
theorem searchsorted_spec (e : ℚ) (l : List ℚ) :
    ∀ i : ℕ, i ≤ l.length →
      (∀ j, j < i → l.getD j 0 < e) →
      (∀ j, i ≤ j → j < l.length → e < l.getD j 0) →
      searchsorted l e = i := by
  induction l with
  | nil =>
      intro i hi _ _
      simp only [List.length_nil, Nat.le_zero] at hi
      simp [searchsorted, hi]
  | cons a t ih =>
      intro i hi hlow hup
      cases i with
      | zero =>
          have ha : ¬ (a < e) := by
            have h := hup 0 (Nat.le_refl 0) (by simp)
            simp only [List.getD_cons_zero] at h
            exact not_lt.mpr h.le
          have ht : searchsorted t e = 0 := by
            apply ih 0 (Nat.zero_le _)
            · intro j hj; omega
            · intro j _ hj
              have h := hup (j + 1) (Nat.zero_le _)
                (by simpa using Nat.succ_lt_succ hj)
              simpa only [List.getD_cons_succ] using h
          simpa [searchsorted, List.filter_cons, ha] using ht
      | succ k =>
          have ha : a < e := by
            have h := hlow 0 (Nat.succ_pos k)
            simpa only [List.getD_cons_zero] using h
          have ht : searchsorted t e = k := by
            apply ih k (by simpa using hi)
            · intro j hj
              have h := hlow (j + 1) (Nat.succ_lt_succ hj)
              simpa only [List.getD_cons_succ] using h
            · intro j hj hj2
              have h := hup (j + 1) (Nat.succ_le_succ hj)
                (by simpa using Nat.succ_lt_succ hj2)
              simpa only [List.getD_cons_succ] using h
          simp [searchsorted, List.filter_cons, ha] at ht ⊢
          omega

/-- Helper: a value strictly separated from every element of a list is not a
member of the list. -/
theorem not_mem_of_bracket (e : ℚ) (l : List ℚ) (i : ℕ)
    (hlow : ∀ j, j < i → l.getD j 0 < e)
    (hup : ∀ j, i ≤ j → j < l.length → e < l.getD j 0) :
    e ∉ l := by
  intro hmem
  obtain ⟨n, hn⟩ := List.mem_iff_get.mp hmem
  have hgd : l.getD (n : ℕ) 0 = e := by
    rw [List.getD_eq_getElem l 0 n.isLt]
    simpa [List.get_eq_getElem] using hn
  rcases lt_or_ge (n : ℕ) i with h | h
  · exact absurd hgd (ne_of_lt (hlow n h))
  · exact absurd hgd (ne_of_gt (hup n h n.isLt))

/-- Helper: filtering a list of pairs with strictly increasing first
components for a first component that occurs at index `i` returns exactly
that pair. -/
theorem filter_eq_singleton_of_pairwise (E : ℚ) (l : List (ℚ × ℚ)) :
    ∀ (i : ℕ) (hi : i < l.length),
      (l.map Prod.fst).Pairwise (· < ·) →
      (l.get ⟨i, hi⟩).1 = E →
      l.filter (fun p => decide (p.1 = E)) = [l.get ⟨i, hi⟩] := by
  induction l with
  | nil => intro i hi; simp at hi
  | cons a t ih =>
      intro i hi hp hE
      have hp' : (a.1 :: t.map Prod.fst).Pairwise (· < ·) := by simpa using hp
      rcases List.pairwise_cons.mp hp' with ⟨hhead, htail⟩
      cases i with
      | zero =>
          simp only [List.get_eq_getElem, List.getElem_cons_zero] at hE
          have hnone : t.filter (fun p => decide (p.1 = E)) = [] := by
            rw [List.filter_eq_nil_iff]
            intro p hpmem
            have hlt : a.1 < p.1 := hhead p.1 (List.mem_map_of_mem _ hpmem)
            rw [hE] at hlt
            simpa using (ne_of_gt hlt)
          simp [List.filter_cons, hE, hnone]
      | succ k =>
          have hk : k < t.length := by simpa using hi
          have h1 : (t.get ⟨k, hk⟩).1 = E := by simpa using hE
          have hne : ¬ (a.1 = E) := by
            have hlt : a.1 < (t.get ⟨k, hk⟩).1 :=
              hhead _ (List.mem_map_of_mem _ (t.get_mem _ _))
            rw [h1] at hlt
            exact ne_of_lt hlt
          have hrec := ih k hk htail h1
          simp [List.filter_cons, hne, hrec]

/-- C6 (amended): on a strictly increasing energy grid, `Sample` returns 0
for `E` strictly below the first grid point or strictly above the last one;
it returns the stored value at every grid point (including the endpoints);
and strictly between two grid points it returns the lin-lin interpolation
`(xs[i] - xs[i-1]) / (E[i] - E[i-1]) * (E - E[i-1]) + xs[i-1]`. -/
theorem C6_sample_amended (mtv : ℤ) (name : Option String)
    (Energy xs : List ℚ) (E : ℚ)
    (hlen : Energy.length = xs.length)
    (hsort : Energy.Pairwise (· < ·)) :
    (∀ h0, Energy.head? = some h0 → E < h0 →
        XS.Sample (XS.init mtv Energy xs name) E = 0)
  ∧ (∀ hl, Energy.getLast? = some hl → hl < E →
        XS.Sample (XS.init mtv Energy xs name) E = 0)
  ∧ (∀ i, i < Energy.length → Energy.getD i 0 = E →
        XS.Sample (XS.init mtv Energy xs name) E = xs.getD i 0)
  ∧ (∀ i, 0 < i → i < Energy.length →
        Energy.getD (i - 1) 0 < E → E < Energy.getD i 0 →
        XS.Sample (XS.init mtv Energy xs name) E =
          (xs.getD i 0 - xs.getD (i - 1) 0)
              / (Energy.getD i 0 - Energy.getD (i - 1) 0)
              * (E - Energy.getD (i - 1) 0)
            + xs.getD (i - 1) 0) := by
  have hfst : (Energy.zip xs).map Prod.fst = Energy :=
    List.map_fst_zip Energy xs (le_of_eq hlen)
  have hzlen : (Energy.zip xs).length = Energy.length := by
    rw [List.length_zip, hlen, Nat.min_self]
  have hmono : ∀ j k, j < k → k < Energy.length →
      Energy.getD j 0 < Energy.getD k 0 := by
    intro j k hjk hk
    have hj : j < Energy.length := lt_trans hjk hk
    rw [List.getD_eq_getElem Energy 0 hj, List.getD_eq_getElem Energy 0 hk]
    exact List.pairwise_iff_getElem.mp hsort j k hj hk hjk
  refine ⟨?_, ?_, ?_, ?_⟩
  · -- E strictly below the first grid point
    intro h0 hh0 hE0
    have hlow : ∀ j, j < 0 → Energy.getD j 0 < E := by intro j hj; omega
    have hup : ∀ j, 0 ≤ j → j < Energy.length → E < Energy.getD j 0 := by
      intro j _ hj
      rcases Nat.eq_zero_or_pos j with rfl | hjpos
      · have : Energy.getD 0 0 = h0 := by
          cases Energy with
          | nil => simp at hh0
          | cons a t =>
              simp only [List.head?_cons, Option.some.injEq] at hh0
              simp [hh0]
        rw [this]; exact hE0
      · have h00 : Energy.getD 0 0 = h0 := by
          cases Energy with
          | nil => simp at hh0
          | cons a t =>
              simp only [List.head?_cons, Option.some.injEq] at hh0
              simp [hh0]
        have := hmono 0 j hjpos hj
        rw [h00] at this
        exact lt_trans hE0 this
    have hnm : E ∉ Energy := not_mem_of_bracket E Energy 0 hlow hup
    have hss : searchsorted Energy E = 0 :=
      searchsorted_spec E Energy 0 (Nat.zero_le _) hlow hup
    unfold XS.Sample
    simp only [XS.init, hfst]
    rw [if_neg hnm, if_pos]
    left; exact hss
  · -- E strictly above the last grid point
    intro hl hhl hEl
    have hlast : Energy.getD (Energy.length - 1) 0 = hl := by
      rw [List.getLast?_eq_getElem?] at hhl
      have := List.getElem?_eq_some.mp hhl
      obtain ⟨hlt, heq⟩ := this
      rw [List.getD_eq_getElem Energy 0 hlt]
      exact heq
    have hpos : 0 < Energy.length := by
      cases Energy with
      | nil => simp at hhl
      | cons a t => simp
    have hlow : ∀ j, j < Energy.length → Energy.getD j 0 < E := by
      intro j hj
      rcases Nat.lt_or_ge j (Energy.length - 1) with h | h
      · have := hmono j (Energy.length - 1) h (by omega)
        rw [hlast] at this
        exact lt_trans this hEl
      · have : j = Energy.length - 1 := by omega
        rw [this, hlast]; exact hEl
    have hup : ∀ j, Energy.length ≤ j → j < Energy.length →
        E < Energy.getD j 0 := by intro j h1 h2; omega
    have hnm : E ∉ Energy :=
      not_mem_of_bracket E Energy Energy.length hlow hup
    have hss : searchsorted Energy E = Energy.length :=
      searchsorted_spec E Energy Energy.length (Nat.le_refl _) hlow hup
    unfold XS.Sample
    simp only [XS.init, hfst]
    rw [if_neg hnm, if_pos]
    right
    rw [hss, hzlen]
  · -- E is a grid point: exact stored value
    intro i hi hEi
    have hiz : i < (Energy.zip xs).length := by rw [hzlen]; exact hi
    have hgi : ((Energy.zip xs).get ⟨i, hiz⟩).1 = E := by
      have := @List.getElem_zip ℚ ℚ Energy xs i hiz
      simp only [List.get_eq_getElem, this]
      rw [← List.getD_eq_getElem Energy 0 hi]
      exact hEi
    have hmem : E ∈ Energy := by
      rw [← hEi, List.getD_eq_getElem Energy 0 hi]
      exact List.getElem_mem _
    have hfilter := filter_eq_singleton_of_pairwise E (Energy.zip xs) i hiz
      (by rw [hfst]; exact hsort) hgi
    unfold XS.Sample
    simp only [XS.init, hfst]
    rw [if_pos hmem, hfilter]
    have := @List.getElem_zip ℚ ℚ Energy xs i hiz
    simp only [List.get_eq_getElem, this, List.map_cons, List.map_nil,
      List.headD_cons]
    rw [List.getD_eq_getElem xs 0 (by omega)]
  · -- E strictly between two grid points: lin-lin interpolation
    intro i hipos hi hEl hEr
    have hlow : ∀ j, j < i → Energy.getD j 0 < E := by
      intro j hj
      rcases Nat.lt_or_ge j (i - 1) with h | h
      · have := hmono j (i - 1) h (by omega)
        exact lt_trans this hEl
      · have : j = i - 1 := by omega
        rw [this]; exact hEl
    have hup : ∀ j, i ≤ j → j < Energy.length → E < Energy.getD j 0 := by
      intro j hj hj2
      rcases Nat.lt_or_ge i j with h | h
      · have := hmono i j h hj2
        exact lt_trans hEr this
      · have : j = i := by omega
        rw [this]; exact hEr
    have hnm : E ∉ Energy := not_mem_of_bracket E Energy i hlow hup
    have hss : searchsorted Energy E = i :=
      searchsorted_spec E Energy i (le_of_lt hi) hlow hup
    have hiz : i < (Energy.zip xs).length := by rw [hzlen]; exact hi
    have hizm : i - 1 < (Energy.zip xs).length := by omega
    have hnot : ¬ (i = 0 ∨ i ≥ (Energy.zip xs).length) := by
      rw [hzlen]
      push_neg
      exact ⟨by omega, by omega⟩
    unfold XS.Sample
    simp only [XS.init, hfst]
    rw [if_neg hnm]
    rw [hss]
    rw [if_neg hnot]
    have hp1 := @List.getElem_zip ℚ ℚ Energy xs i hiz
    have hp0 := @List.getElem_zip ℚ ℚ Energy xs (i - 1) hizm
    rw [List.getD_eq_getElem (Energy.zip xs) (0, 0) hiz,
        List.getD_eq_getElem (Energy.zip xs) (0, 0) hizm, hp1, hp0]
    rw [List.getD_eq_getElem Energy 0 hi, List.getD_eq_getElem Energy 0 (by omega : i - 1 < Energy.length),
        List.getD_eq_getElem xs 0 (by omega : i < xs.length),
        List.getD_eq_getElem xs 0 (by omega : i - 1 < xs.length)]

/-- C6 witness: the amended theorem evaluated on the concrete grid
`[1, 2, 4]` with values `[5, 7, 9]` at the interior query `E = 3`. -/
theorem C6_sample_amended_witness :
    XS.Sample (XS.init 1 [1, 2, 4] [5, 7, 9] none) 3 =
      ([(5 : ℚ), 7, 9].getD 2 0 - [(5 : ℚ), 7, 9].getD 1 0)
          / ([(1 : ℚ), 2, 4].getD 2 0 - [(1 : ℚ), 2, 4].getD 1 0)
          * (3 - [(1 : ℚ), 2, 4].getD 1 0)
        + [(5 : ℚ), 7, 9].getD 1 0 := by
  have h := C6_sample_amended 1 none [1, 2, 4] [5, 7, 9] 3 (by decide)
    (by decide)
  exact h.2.2.2 2 (by decide) (by decide) (by decide) (by decide)

/-- C1: a stream holding fewer floats than `NXS[1]` decodes without failure
into a short XSS array: `numpy.fromfile` does not raise on a short read, and
`ace.__init__` never runs the `_processXSS` length assertion (whose check
evaluates to `false` here). -/
theorem C1_truncated_load_succeeds :
    aceReadXSS [(5 : ℚ)] 3 = [5] ∧ (aceReadXSS [(5 : ℚ)] 3).length = 1 ∧
      processXSSAssert (aceReadXSS [(5 : ℚ)] 3) 3 = false := by
  decide

/-- C2: with `JXS[1] = 2` and `NXS[3] = 3` the source's slice
`XSS[start_index:N]` yields an `energies` array of length 2, not the claimed
`NXS[3] = 3`, while the other four ESZ arrays do have length 3; the MT
1/102/2/301 entries are built from that short grid. -/
theorem C2_esz_energies_slice :
    (ESZBlock xssESZexample 2 3).energies = [11, 12] ∧
      (ESZBlock xssESZexample 2 3).energies.length ≠ 3 ∧
      (ESZBlock xssESZexample 2 3).xs_total.length = 3 ∧
      (ESZxsEntries (ESZBlock xssESZexample 2 3)).map Prod.fst
        = [1, 102, 2, 301] := by
  decide

/-- C3: for `INTT = 21` the Law-4 split produces `ND = int(21) = 21` and
interpolation flag `21 - 10·21 = -189`, not the claimed `ND = 2` with flag
`1`; the same branch of Law 44/61 raises `AttributeError`. -/
theorem C3_intt_split :
    law4SplitINTT 21 = (some 21, -189) ∧
      law4SplitINTT 21 ≠ (some 2, (1 : ℚ)) ∧
      law44SplitINTT 21 = none := by
  have hnd : pyInt 21 = 21 := by decide
  have h10 : (21 : ℚ) > 10 := by norm_num
  have h1 : law4SplitINTT 21 = (some 21, -189) := by
    simp only [law4SplitINTT, if_pos h10, hnd]
    norm_num
  refine ⟨h1, ?_, by decide⟩
  rw [h1]
  simp only [ne_eq, Prod.mk.injEq, Option.some.injEq, not_and]
  intro h
  omega

/-- C4: whenever `JXS[2] ≠ 0`, a positive `XSS[JXS[2]]` makes the NU block
decode a single nubar at `KNU = JXS[2]` and store the very same record as
both prompt and total nubar, while a negative `XSS[JXS[2]]` makes it decode
the prompt nubar starting at `JXS[2]+1` and the total nubar starting at
`JXS[2]+|XSS[JXS[2]]|+1`. -/
theorem C4_nu_dispatch (xss : List ℚ) (jxs2 : ℤ) (h : jxs2 ≠ 0) :
    (0 < pyAt xss (jxs2 - 1) →
      NUBlock xss jxs2
        = some (extractNubar xss (jxs2 : ℚ), extractNubar xss (jxs2 : ℚ)))
  ∧ (pyAt xss (jxs2 - 1) < 0 →
      NUBlock xss jxs2
        = some (extractNubar xss ((jxs2 : ℚ) + 1),
            extractNubar xss ((jxs2 : ℚ) + |pyAt xss (jxs2 - 1)| + 1))) := by
  constructor
  · intro hpos
    simp only [NUBlock]
    rw [if_pos h, if_pos hpos]
  · intro hneg
    have hnpos : ¬ 0 < pyAt xss (jxs2 - 1) := not_lt.mpr hneg.le
    simp only [NUBlock]
    rw [if_pos h, if_neg hnpos, if_pos hneg]

/-- C4 witness: the dispatch theorem evaluated on a concrete XSS with
`JXS[2] = 1` and `XSS[JXS[2]] = 2 > 0`. -/
theorem C4_nu_dispatch_witness :
    0 < pyAt [2, 0, 1, 2, 10, 20] ((1 : ℤ) - 1) ∧
      NUBlock [2, 0, 1, 2, 10, 20] 1
        = some (extractNubar [2, 0, 1, 2, 10, 20] ((1 : ℤ) : ℚ),
            extractNubar [2, 0, 1, 2, 10, 20] ((1 : ℤ) : ℚ)) :=
  ⟨by decide, (C4_nu_dispatch [2, 0, 1, 2, 10, 20] 1 (by decide)).1 (by decide)⟩

/-- C5: a nubar whose form flag is `LNU = XSS[KNU] = 1` (polynomial form)
decodes to `None`: `_poly_nubar`'s body is `pass`, so the degree stored at
`KNU+1` and the coefficients after it are dropped, not decoded. -/
theorem C5_poly_nubar_dropped :
    extractNubar [1, 2, 5, 7] 1 = none ∧
      pyAt [1, 2, 5, 7] 0 = 1 := by
  have hsub : (1 : ℚ) - 1 = 0 := by norm_num
  have h0 : pyInt ((1 : ℚ) - 1) = 0 := by
    rw [hsub]
    decide
  constructor
  · simp only [extractNubar, h0]
    decide
  · decide

/-- C7: with `JXS[8] = 1`, `NXS[5] = 2` and `mt_list = [51, 52]`, the LAND
decoder reads only 2 locators (`NXS[5]`, not the claimed `NXS[5]+1 = 3`),
and the AND block then assigns angular distributions to elastic plus MT 51
only — MT 52 receives no entry. -/
theorem C7_land_locator_count :
    LANDBlock [10, 20, 30, 40] 1 2 = [10, 20] ∧
      (LANDBlock [10, 20, 30, 40] 1 2).length ≠ 2 + 1 ∧
      ANDBlockMTKeys (LANDBlock [10, 20, 30, 40] 1 2) [51, 52] = [51] := by
  decide

/-- C8 counterexample: for a new-style header with the numeric ZAID
`92235.710nc`, the ZA part parses as an integer, yet the decoder stores the
split strings only and leaves `Z` and `A` absent — the claim requires
`Z = 92` on every table whose ZA parses. -/
theorem C8_counterexample :
    pyParseInt "92235" = some 92235 ∧
      processNewStyleHeaderId "92235.710nc"
        = some { zaid := "92235", zaid_suffix := "710nc",
                 Z := none, A := none } := by
  constructor
  · decide
  · decide

/-- C8 (amended): old-style header parsing sets `Z = ZA/1000` and
`A = ZA − 1000·Z` exactly when the ZA part parses as an integer and leaves
both absent otherwise; new-style header parsing splits the ZAID but never
sets `Z` or `A`. -/
theorem C8_zaid_parsing_amended (za : String) (n : ℤ) :
    (pyParseInt za = some n →
      processOldStyleZA za
        = { zaid := some n, Z := some (n.tdiv 1000),
            A := some (n - n.tdiv 1000 * 1000) })
  ∧ (pyParseInt za = none →
      processOldStyleZA za = { zaid := none, Z := none, A := none })
  ∧ (∀ ZAID r, processNewStyleHeaderId ZAID = some r →
      r.Z = none ∧ r.A = none) := by
  refine ⟨?_, ?_, ?_⟩
  · intro h
    simp [processOldStyleZA, h]
  · intro h
    simp [processOldStyleZA, h]
  · intro ZAID r h
    revert h
    unfold processNewStyleHeaderId
    rcases pySplitDot ZAID with _ | ⟨z, _ | ⟨s, _ | ⟨t, rest⟩⟩⟩ <;>
      intro h <;> simp_all
    rcases h with ⟨h1, rfl⟩
    exact ⟨rfl, rfl⟩

/-- C8 witness: the amended theorem evaluated at the old-style ZA string
`92235`. -/
theorem C8_zaid_parsing_witness :
    processOldStyleZA "92235"
      = { zaid := some 92235, Z := some ((92235 : ℤ).tdiv 1000),
          A := some (92235 - (92235 : ℤ).tdiv 1000 * 1000) } :=
  (C8_zaid_parsing_amended "92235" 92235).1 (by decide)

/-- C10: with no filename and an incomplete `(zaid, xsdir)` pair, the
leading `assert` of `ace.__init__` fails: the result is `AssertionError`,
no branch that opens a file or reads a header byte is reached, and no
partially constructed table is produced. -/
theorem C10_incomplete_args_assert (zaid : Option String) (hasXsdir : Bool)
    (h : zaid = none ∨ hasXsdir = false) :
    aceInitDispatch none zaid hasXsdir = .error .assertionError := by
  rcases h with h | h <;> subst h <;> simp [aceInitDispatch]

/-- C10 witness: a zaid without an xsdir object (and no filename) hits the
assertion. -/
theorem C10_incomplete_args_assert_witness :
    aceInitDispatch none (some "92235.70c") false
      = .error .assertionError :=
  C10_incomplete_args_assert (some "92235.70c") false (Or.inr rfl)

end DataListing
